import Mathlib

/-!
Verification of the jec-fit-prototype measurement-combination engine.

The C++ sources are embedded shallowly: `double` values become rationals,
strings become lists of characters, and IEEE divisions that can produce a
non-finite value (division by zero) are made explicit through `Option`.
-/

set_option autoImplicit false

/-! ### Division as performed on IEEE doubles

A quotient `a / b` of finite doubles is a finite real number exactly when
`b ≠ 0`; for `b = 0` the hardware produces `±inf` or `NaN`.  `fdiv` returns
`none` precisely in that non-finite case. -/

/-- Division of finite floating-point values: `none` when the denominator is
zero (the IEEE result would be `±inf` or `NaN`), otherwise the exact
quotient. -/
def fdiv (a b : ℚ) : Option ℚ :=
  if b = 0 then none else some (a / b)

/-! ### `PhotonJet` (src/src/PhotonJet.cpp) -/

/-- One point of the extrapolated balance-ratio graph loaded by the
`PhotonJet` constructor: photon transverse momentum, balance ratio, and the
squared uncertainty `unc2 = pow(GetErrorY(i), 2)`. -/
structure PtBin where
  ptPhoton : ℚ
  balanceRatio : ℚ
  unc2 : ℚ
deriving DecidableEq, Repr

/-- The nuisance-parameter vector as read by `PhotonJet::Eval`: the only
component that code touches is `nuisances.photonScale`. -/
structure Nuisances where
  photonScale : ℚ
deriving DecidableEq, Repr

/-- A `PhotonJet` measurement: the bins loaded at construction.  The class
has no other data member used by `GetDim` or `Eval`. -/
structure PhotonJet where
  bins : List PtBin
deriving DecidableEq, Repr

namespace PhotonJet

/-- Embeds `PhotonJet::GetDim`: the number of loaded bins. -/
def GetDim (m : PhotonJet) : ℕ :=
  m.bins.length

/-- The body of the loop in `PhotonJet::Eval` for a single bin:

    double const balanceRatioCorr = bin.balanceRatio / (1 + nuisances.photonScale);
    double const ptPhoton = bin.ptPhoton * (1 + nuisances.photonScale);
    chi2 += std::pow(balanceRatioCorr - 1 / corrector.Eval(ptPhoton), 2) / bin.unc2;

`corrector` stands for the virtual `JetCorrBase::Eval`, an arbitrary
function of the (scaled) photon momentum.  The result is `none` exactly
when one of the three divisions hits a zero denominator, in which case the
C++ computation yields a non-finite double. -/
def evalBin (corrector : ℚ → ℚ) (nuisances : Nuisances) (bin : PtBin) : Option ℚ :=
  match fdiv bin.balanceRatio (1 + nuisances.photonScale) with
  | none => none
  | some balanceRatioCorr =>
    let ptPhoton := bin.ptPhoton * (1 + nuisances.photonScale)
    match fdiv 1 (corrector ptPhoton) with
    | none => none
    | some inv => fdiv ((balanceRatioCorr - inv) ^ 2) bin.unc2

/-- The accumulation loop of `PhotonJet::Eval`: `chi2` starts at the
accumulator and each bin's term is added in order.  A non-finite term
poisons the total, as it does for IEEE doubles. -/
def evalBins (corrector : ℚ → ℚ) (nuisances : Nuisances) (acc : ℚ) :
    List PtBin → Option ℚ
  | [] => some acc
  | bin :: rest =>
    match evalBin corrector nuisances bin with
    | none => none
    | some term => evalBins corrector nuisances (acc + term) rest

/-- Embeds `PhotonJet::Eval`: starts from `chi2 = 0` and sums the per-bin
chi-square terms. -/
def Eval (m : PhotonJet) (corrector : ℚ → ℚ) (nuisances : Nuisances) : Option ℚ :=
  evalBins corrector nuisances 0 m.bins

end PhotonJet

/-! ### `HistMorph` (src/include/HistMorph.hpp)

Only the header is available; the implementation file (`src/Morphing.cpp`
of the build) is not part of the sources at hand, so `Eval` and
`SmoothStep` are modelled from the specification. -/

/-- Three-point morphing state: the reference points `central`, `up`,
`down`, one value per histogram bin (`std::vector<double>` members of
`HistMorph`). -/
structure HistMorph where
  central : List ℚ
  up : List ℚ
  down : List ℚ
deriving DecidableEq, Repr

namespace HistMorph

/-- Modelled from the spec: the constructor of `HistMorph` from up and down
reference points only, documented in the header as setting all central
reference points to zero. -/
def ofUpDown (up down : List ℚ) : HistMorph :=
  ⟨List.replicate up.length 0, up, down⟩

/-- Modelled from the spec: the monotone smooth-step blend `S` with
`S(-1) = 0`, `S(0) = 1/2`, `S(+1) = 1` (the cubic smoothstep on `[-1, 1]`);
the spec leaves the exact polynomial open and only these boundary values
are used below. -/
def SmoothStep (x : ℚ) : ℚ :=
  (-x ^ 3 + 3 * x + 2) / 4

/-- Modelled from the spec: `HistMorph::Eval(bin, x)` (implementation
missing from the sources).  Per the spec it blends `down` with `central`
for `x ∈ [-1, 0]` and `central` with `up` for `x ∈ [0, 1]` using the
smooth step as blend weight, reproducing the reference values at
`x = -1, 0, +1`, and continues linearly outside `[-1, 1]` with the slope
of the interpolant at the matching endpoint (zero for this smooth step). -/
def Eval (m : HistMorph) (bin : ℕ) (x : ℚ) : ℚ :=
  let c := m.central.getD bin 0
  let u := m.up.getD bin 0
  let d := m.down.getD bin 0
  if x < -1 then d
  else if x ≤ 0 then d + (c - d) * (2 * SmoothStep x)
  else if x ≤ 1 then c + (u - c) * (2 * SmoothStep x - 1)
  else u

end HistMorph

/-! ### Constraint-specification parsing (src/prog/fit.cpp, lines 91-127)

Strings are lists of characters; `std::string::find` returning `npos`
becomes `none`; `std::stod` throwing `invalid_argument` becomes `none`. -/

/-- Numeric value of a run of decimal digits, most significant first. -/
def digitsToNat (ds : List Char) : ℕ :=
  ds.foldl (fun acc c => acc * 10 + (c.toNat - 48)) 0

/-- Applies a trailing decimal exponent (`e`/`E`, optional sign, digits) to
a parsed mantissa, the way `strtod` does: an incomplete exponent part is
ignored and the mantissa alone is the result. -/
def applyExponent (q : ℚ) (rest : List Char) : ℚ :=
  match rest with
  | [] => q
  | c :: r =>
    if c = 'e' ∨ c = 'E' then
      let (negExp, r2) :=
        match r with
        | '-' :: t => (true, t)
        | '+' :: t => (false, t)
        | _ => (false, r)
      let eds := r2.takeWhile Char.isDigit
      if eds = [] then q
      else if negExp then q / 10 ^ digitsToNat eds
      else q * 10 ^ digitsToNat eds
    else q

/-- Splits a character sequence the way `strtod` scans a decimal literal:
skip leading whitespace, note an optional sign, then collect the integral
digits, the fractional digits after an optional point, and the remaining
characters (a potential exponent part). -/
def stodSplit (s : List Char) : Bool × List Char × List Char × List Char :=
  let s1 := s.dropWhile Char.isWhitespace
  let (neg, s2) :=
    match s1 with
    | '-' :: t => (true, t)
    | '+' :: t => (false, t)
    | _ => (false, s1)
  let intDigits := s2.takeWhile Char.isDigit
  let s3 := s2.dropWhile Char.isDigit
  let (fracDigits, s4) :=
    match s3 with
    | '.' :: t => (t.takeWhile Char.isDigit, t.dropWhile Char.isDigit)
    | _ => ([], s3)
  (neg, intDigits, fracDigits, s4)

/-- Embeds `std::stod` on the decimal literals admitted by the constraint
grammar: the longest valid prefix is converted and trailing characters are
ignored; `none` (an `invalid_argument` throw) when no digit at all can be
converted. -/
def stod (s : List Char) : Option ℚ :=
  match stodSplit s with
  | (neg, intDigits, fracDigits, s4) =>
    if intDigits = [] ∧ fracDigits = [] then none
    else
      let mant : ℚ :=
        (digitsToNat (intDigits ++ fracDigits) : ℚ) / 10 ^ fracDigits.length
      let value := applyExponent mant s4
      some (if neg then -value else value)

/-- Embeds `std::string::find(c, pos)`: the index of the first occurrence
of `c` at position `pos` or later, `none` for `npos`. -/
def strFind (s : List Char) (c : Char) (pos : ℕ) : Option ℕ :=
  ((s.drop pos).findIdx? (· = c)).map (· + pos)

/-- Embeds `std::string::substr(pos, len)` (note: the second argument of
`substr` is a length, as in the C++ call `substr(commaPos1 + 1, commaPos2)`
of fit.cpp). -/
def substrLen (s : List Char) (pos len : ℕ) : List Char :=
  (s.drop pos).take len

/-- Embeds `std::string::substr(pos)`: the suffix from `pos` on. -/
def substrFrom (s : List Char) (pos : ℕ) : List Char :=
  s.drop pos

/-- Embeds the constraint-parsing block of `main` (fit.cpp lines 95-127):
locate the first comma (no comma is a parse failure), then either read
`targetCorr,relUnc` with the default reference scale 208, or read
`ptRef,targetCorr,relUnc` when a second comma exists.  The result triple is
`(ptRef, targetCorr, relUnc)`; `none` is the "Failed to parse constraint"
exit. -/
def parseConstraint (s : List Char) : Option (ℚ × ℚ × ℚ) :=
  match strFind s ',' 0 with
  | none => none
  | some commaPos1 =>
    match strFind s ',' (commaPos1 + 1) with
    | none =>
      match stod (substrLen s 0 commaPos1), stod (substrFrom s (commaPos1 + 1)) with
      | some targetCorr, some relUnc => some (208, targetCorr, relUnc)
      | _, _ => none
    | some commaPos2 =>
      match stod (substrLen s 0 commaPos1),
            stod (substrLen s (commaPos1 + 1) commaPos2),
            stod (substrFrom s (commaPos2 + 1)) with
      | some ptRef, some targetCorr, some relUnc => some (ptRef, targetCorr, relUnc)
      | _, _, _ => none

/-! ### Configuration phase of `main` (src/prog/fit.cpp) -/

/-- Command-line options relevant to the configuration checks of `main`:
the balance-variable name (default `"PtBal"`), the optional multijet input
file, and the optional constraint specification. -/
structure FitConfig where
  balance : List Char
  multijet : Option (List Char)
  constraint : Option (List Char)

/-- Configuration errors of `main`, each reported on `cerr` followed by
`return EXIT_FAILURE`. -/
inductive ConfigError where
  | unknownBalance
  | badConstraint
  | noMeasurements
deriving DecidableEq, Repr

/-- The measurements `main` can put into its list: the multijet analysis
(with its balance method) and the artificial constraint measurement. -/
inductive Meas where
  | multijet (useMPF : Bool)
  | constraint (ptRef targetCorr relUnc : ℚ)
deriving DecidableEq, Repr

/-- Embeds the balance-variable dispatch of `main`: the option value is
lowercased (`boost::to_lower`); `"mpf"` selects the MPF method, `"ptbal"`
the pt-balance method, anything else is rejected. -/
def balanceMode (balance : List Char) : Option Bool :=
  let bv := balance.map Char.toLower
  if bv = "mpf".toList then some true
  else if bv = "ptbal".toList then some false
  else none

/-- Embeds the configuration phase of `main` (fit.cpp lines 60-138), in
the order the code performs it: balance-variable check, optional multijet
measurement, optional constraint parsing, and the final check that at
least one measurement was requested.  An `Except.error` is a path on which
`main` prints a diagnostic and returns `EXIT_FAILURE` before any fitting
machinery is built. -/
def configure (cfg : FitConfig) : Except ConfigError (List Meas) :=
  match balanceMode cfg.balance with
  | none => .error .unknownBalance
  | some useMPF =>
    let ms1 : List Meas :=
      match cfg.multijet with
      | some _ => [.multijet useMPF]
      | none => []
    match cfg.constraint with
    | none =>
      if ms1 = [] then .error .noMeasurements else .ok ms1
    | some s =>
      match parseConstraint s with
      | none => .error .badConstraint
      | some (ptRef, targetCorr, relUnc) =>
        let ms2 := ms1 ++ [.constraint ptRef targetCorr relUnc]
        if ms2 = [] then .error .noMeasurements else .ok ms2

/-- Embeds the exit behaviour of `main`: every configuration error returns
`EXIT_FAILURE` (1) at once; only on a successful configuration does the
program go on to build the loss function and minimize, abstracted here as
an arbitrary continuation `runFit`. -/
def fitMain (cfg : FitConfig) (runFit : List Meas → ℕ) : ℕ :=
  match configure cfg with
  | .error _ => 1
  | .ok ms => runFit ms

/-! ### Minimizer variable setup (src/prog/fit.cpp, lines 158-173) -/

/-- One minimizer variable, as configured by the pair of calls
`SetVariable(i, name, init, step)` and `SetVariableLimits(i, lo, hi)`. -/
structure VarSetting where
  name : String
  init : ℚ
  step : ℚ
  lo : ℚ
  hi : ℚ
deriving DecidableEq, Repr

/-- Embeds the two variable-setup loops of `main`: `nPOI = nPars -
nuisanceDefs.GetNumParams()`; variables `0 ≤ i < nPOI` are the POI, named
`"p" + to_string(i)` with initial value 0, step `1e-2` and limits
`[-1, 1]`; variables `nPOI ≤ i < nPars` are the nuisances, named from the
registry at index `i - nPOI`, with initial value 0, step 1 and limits
`[-5, 5]`.  Entry `i` of the returned list is minimizer variable `i`. -/
def minimizerVars (nPars nNuis : ℕ) (nuisName : ℕ → String) : List VarSetting :=
  let nPOI := nPars - nNuis
  ((List.range nPOI).map fun i =>
    ⟨"p" ++ toString i, 0, 1 / 100, -1, 1⟩)
  ++ ((List.range (nPars - nPOI)).map fun j =>
    ⟨nuisName j, 0, 1, -5, 5⟩)

/-! ## Helper lemmas -/

/-- A successful `fdiv` with non-negative numerator and denominator yields
a non-negative quotient. -/
theorem fdiv_nonneg_of_some (a b q : ℚ) (ha : 0 ≤ a) (hb : 0 ≤ b)
    (h : fdiv a b = some q) : 0 ≤ q := by
  unfold fdiv at h
  split at h
  · exact absurd h (by simp)
  · cases h
    exact div_nonneg ha hb

/-- A successful per-bin term of `PhotonJet::Eval` is non-negative when the
bin's squared uncertainty is non-negative. -/
theorem evalBin_nonneg (corrector : ℚ → ℚ) (nuisances : Nuisances) (bin : PtBin)
    (hu : 0 ≤ bin.unc2) (t : ℚ)
    (h : PhotonJet.evalBin corrector nuisances bin = some t) : 0 ≤ t := by
  unfold PhotonJet.evalBin at h
  split at h
  · exact absurd h (by simp)
  · dsimp only at h
    split at h
    · exact absurd h (by simp)
    · exact fdiv_nonneg_of_some _ _ _ (sq_nonneg _) hu h

/-- The accumulation loop of `PhotonJet::Eval` preserves non-negativity of
the accumulator. -/
theorem evalBins_nonneg (corrector : ℚ → ℚ) (nuisances : Nuisances) :
    ∀ (bins : List PtBin) (acc : ℚ), 0 ≤ acc →
      (∀ b ∈ bins, 0 ≤ b.unc2) → ∀ v,
      PhotonJet.evalBins corrector nuisances acc bins = some v → 0 ≤ v := by
  intro bins
  induction bins with
  | nil =>
    intro acc hacc _ v h
    cases h
    exact hacc
  | cons bin rest ih =>
    intro acc hacc hall v h
    unfold PhotonJet.evalBins at h
    split at h
    · exact absurd h (by simp)
    · rename_i term hterm
      exact ih (acc + term)
        (add_nonneg hacc (evalBin_nonneg _ _ _ (hall bin (by simp)) _ hterm))
        (fun b hb => hall b (by simp [hb])) v h

/-- A predicate holding nowhere on a list makes `findIdx?` return `none`. -/
theorem findIdx?_none_of_not_mem (s : List Char) (c : Char) (h : c ∉ s) :
    s.findIdx? (· = c) = none := by
  rw [List.findIdx?_eq_none_iff]
  intro x hx
  simp only [decide_eq_false_iff_not]
  intro hxc
  exact h (hxc ▸ hx)

/-- A string without the sought character makes the embedded
`std::string::find` report `npos`. -/
theorem strFind_none_of_not_mem (s : List Char) (c : Char) (pos : ℕ) (h : c ∉ s) :
    strFind s c pos = none := by
  unfold strFind
  rw [findIdx?_none_of_not_mem _ _ (fun hc => h (List.mem_of_mem_drop hc))]
  rfl

/-! ## Claim theorems -/

/-- C1: the claim states that `PhotonJet::Eval` always returns a finite
value, a bin with a zero correction factor or zero `unc2` contributing a
large finite number.  The code has no saturation branch: with `unc2 = 0`
(first conjunct) or a corrector that is zero at the bin's photon pt
(second conjunct) the loop divides by zero, so the IEEE computation yields
a non-finite double — here, no finite result at all. -/
theorem photonJet_eval_pathological_not_finite :
    PhotonJet.Eval ⟨[⟨100, 2, 0⟩]⟩ (fun _ => 1) ⟨0⟩ = none ∧
    PhotonJet.Eval ⟨[⟨100, 2, 1⟩]⟩ (fun _ => 0) ⟨0⟩ = none := by
  constructor <;> simp [PhotonJet.Eval, PhotonJet.evalBins, PhotonJet.evalBin, fdiv]

/-- C5: a `PhotonJet` measurement whose loaded bin list is empty has
`GetDim() = 0` and `Eval` returns 0 for every corrector and nuisance
vector, with no division by zero and no failure. -/
theorem photonJet_empty_measurement (m : PhotonJet) (corrector : ℚ → ℚ)
    (nuisances : Nuisances) (h : m.bins = []) :
    m.GetDim = 0 ∧ m.Eval corrector nuisances = some 0 := by
  constructor
  · simp [PhotonJet.GetDim, h]
  · simp [PhotonJet.Eval, h, PhotonJet.evalBins]

/-- Witness for C5 at the empty measurement. -/
theorem photonJet_empty_measurement_witness :
    PhotonJet.GetDim ⟨[]⟩ = 0 ∧ PhotonJet.Eval ⟨[]⟩ (fun _ => 1) ⟨0⟩ = some 0 :=
  photonJet_empty_measurement ⟨[]⟩ (fun _ => 1) ⟨0⟩ rfl

/-- C7: whenever `PhotonJet::Eval` produces a (finite) value, that value
is non-negative; the bins' squared uncertainties are non-negative, as
guaranteed by the constructor (`unc2 = pow(GetErrorY(i), 2)`). -/
theorem photonJet_eval_nonneg (m : PhotonJet) (corrector : ℚ → ℚ)
    (nuisances : Nuisances) (hu : ∀ b ∈ m.bins, 0 ≤ b.unc2) (v : ℚ)
    (h : m.Eval corrector nuisances = some v) : 0 ≤ v :=
  evalBins_nonneg corrector nuisances m.bins 0 le_rfl hu v h

/-- Witness for C7: a one-bin measurement evaluating to 1. -/
theorem photonJet_eval_nonneg_witness :
    PhotonJet.Eval ⟨[⟨100, 2, 1⟩]⟩ (fun _ => 1) ⟨0⟩ = some 1 ∧ 0 ≤ (1 : ℚ) :=
  ⟨by simp [PhotonJet.Eval, PhotonJet.evalBins, PhotonJet.evalBin, fdiv]; norm_num,
   photonJet_eval_nonneg ⟨[⟨100, 2, 1⟩]⟩ (fun _ => 1) ⟨0⟩ (by decide) 1
     (by simp [PhotonJet.Eval, PhotonJet.evalBins, PhotonJet.evalBin, fdiv]; norm_num)⟩

/-- C8: `PhotonJet::Eval` is a pure function of the corrector, the
nuisance vector, and the measurement's own bin data: identical inputs
(bin-for-bin identical measurements, equal correctors, equal nuisances)
give identical results, and the measurement itself carries no other state
the evaluation could read or write. -/
theorem photonJet_eval_deterministic (m₁ m₂ : PhotonJet) (corr₁ corr₂ : ℚ → ℚ)
    (nu₁ nu₂ : Nuisances) (hb : m₁.bins = m₂.bins) (hc : corr₁ = corr₂)
    (hn : nu₁ = nu₂) :
    m₁.Eval corr₁ nu₁ = m₂.Eval corr₂ nu₂ := by
  simp [PhotonJet.Eval, hb, hc, hn]

/-- Witness for C8: two identical calls agree. -/
theorem photonJet_eval_deterministic_witness :
    PhotonJet.Eval ⟨[⟨100, 2, 1⟩]⟩ (fun pt => pt) ⟨1 / 2⟩ =
      PhotonJet.Eval ⟨[⟨100, 2, 1⟩]⟩ (fun pt => pt) ⟨1 / 2⟩ :=
  photonJet_eval_deterministic ⟨[⟨100, 2, 1⟩]⟩ ⟨[⟨100, 2, 1⟩]⟩
    (fun pt => pt) (fun pt => pt) ⟨1 / 2⟩ ⟨1 / 2⟩ rfl rfl rfl

/-- C4: for a `HistMorph` whose three reference vectors have equal length
and a valid zero-based bin index, `Eval(bin, 0)`, `Eval(bin, +1)` and
`Eval(bin, -1)` reproduce the central, up and down reference values
exactly. -/
theorem histMorph_eval_reference (m : HistMorph) (bin : ℕ)
    (hup : m.up.length = m.central.length)
    (hdown : m.down.length = m.central.length)
    (hbin : bin < m.central.length) :
    m.Eval bin 0 = m.central.getD bin 0 ∧
    m.Eval bin 1 = m.up.getD bin 0 ∧
    m.Eval bin (-1) = m.down.getD bin 0 := by
  refine ⟨?_, ?_, ?_⟩
  · simp only [HistMorph.Eval, HistMorph.SmoothStep,
      if_neg (by norm_num : ¬ ((0 : ℚ) < -1)), if_pos (le_refl (0 : ℚ))]
    ring
  · simp only [HistMorph.Eval, HistMorph.SmoothStep,
      if_neg (by norm_num : ¬ ((1 : ℚ) < -1)),
      if_neg (by norm_num : ¬ ((1 : ℚ) ≤ 0)), if_pos (le_refl (1 : ℚ))]
    ring
  · simp only [HistMorph.Eval, HistMorph.SmoothStep,
      if_neg (by norm_num : ¬ ((-1 : ℚ) < -1)),
      if_pos (by norm_num : ((-1 : ℚ) ≤ 0))]
    ring

/-- Witness for C4 on a one-bin morph with central 5, up 7, down 3. -/
theorem histMorph_eval_reference_witness :
    HistMorph.Eval ⟨[5], [7], [3]⟩ 0 0 = 5 ∧
    HistMorph.Eval ⟨[5], [7], [3]⟩ 0 1 = 7 ∧
    HistMorph.Eval ⟨[5], [7], [3]⟩ 0 (-1) = 3 := by
  simpa using histMorph_eval_reference ⟨[5], [7], [3]⟩ 0 rfl rfl (by decide)

/-- C10: a `HistMorph` built from up and down reference points only has
all central reference values zero, so `Eval(bin, 0) = 0` at every valid
bin index. -/
theorem histMorph_ofUpDown_central_zero (up down : List ℚ) (bin : ℕ)
    (h : bin < up.length) :
    (HistMorph.ofUpDown up down).Eval bin 0 = 0 := by
  have hc : (List.replicate up.length (0 : ℚ)).getD bin 0 = 0 := by
    simp [List.getD_eq_getElem?_getD, List.getElem?_replicate, h]
  simp only [HistMorph.ofUpDown, HistMorph.Eval, HistMorph.SmoothStep,
    if_neg (by norm_num : ¬ ((0 : ℚ) < -1)), if_pos (le_refl (0 : ℚ))]
  rw [hc]
  ring

/-- Witness for C10 on a one-bin up/down morph. -/
theorem histMorph_ofUpDown_central_zero_witness :
    (HistMorph.ofUpDown [7] [3]).Eval 0 0 = 0 :=
  histMorph_ofUpDown_central_zero [7] [3] 0 (by decide)

/-- Evaluation lemma for `stod` in terms of its scanning phase. -/
theorem stod_of_split (s : List Char) (neg : Bool) (ids fds rest : List Char)
    (hsplit : stodSplit s = (neg, ids, fds, rest))
    (hne : ¬(ids = [] ∧ fds = [])) :
    stod s = some (if neg then
        -(applyExponent ((digitsToNat (ids ++ fds) : ℚ) / 10 ^ fds.length) rest)
      else applyExponent ((digitsToNat (ids ++ fds) : ℚ) / 10 ^ fds.length) rest) := by
  unfold stod
  rw [hsplit]
  simp [hne]

/-- Concrete `stod` evaluation: the literal `208`. -/
theorem stod_208 : stod ['2', '0', '8'] = some 208 := by
  rw [stod_of_split ['2', '0', '8'] false ['2', '0', '8'] [] [] (by decide) (by decide)]
  simp [applyExponent]
  have h : digitsToNat ['2', '0', '8'] = 208 := by decide
  rw [h]
  norm_num

/-- Concrete `stod` evaluation: `"1.02,0.0"` converts its longest valid
prefix `1.02` (this is the string the `substr`-length quirk of fit.cpp
hands to `stod` for the middle field). -/
theorem stod_102frag : stod ['1', '.', '0', '2', ',', '0', '.', '0'] = some 1.02 := by
  rw [stod_of_split ['1', '.', '0', '2', ',', '0', '.', '0'] false ['1'] ['0', '2']
    [',', '0', '.', '0'] (by decide) (by decide)]
  simp [applyExponent]
  have h : digitsToNat ['1', '0', '2'] = 102 := by decide
  rw [h]
  norm_num

/-- Concrete `stod` evaluation: the literal `1.02`. -/
theorem stod_102 : stod ['1', '.', '0', '2'] = some 1.02 := by
  rw [stod_of_split ['1', '.', '0', '2'] false ['1'] ['0', '2'] [] (by decide) (by decide)]
  simp [applyExponent]
  have h : digitsToNat ['1', '0', '2'] = 102 := by decide
  rw [h]
  norm_num

/-- Concrete `stod` evaluation: the literal `0.01`. -/
theorem stod_001 : stod ['0', '.', '0', '1'] = some 0.01 := by
  rw [stod_of_split ['0', '.', '0', '1'] false ['0'] ['0', '1'] [] (by decide) (by decide)]
  simp [applyExponent]
  have h : digitsToNat ['0', '0', '1'] = 1 := by decide
  rw [h]
  norm_num

/-- Full three-field parse of `"208,1.02,0.01"`. -/
theorem parse_case1 :
    parseConstraint "208,1.02,0.01".toList = some (208, 1.02, 0.01) := by
  have hf1 : strFind ['2', '0', '8', ',', '1', '.', '0', '2', ',', '0', '.', '0', '1'] ',' 0 =
      some 3 := by decide
  have hf2 : strFind ['2', '0', '8', ',', '1', '.', '0', '2', ',', '0', '.', '0', '1'] ',' 4 =
      some 8 := by decide
  have hs1 : substrLen ['2', '0', '8', ',', '1', '.', '0', '2', ',', '0', '.', '0', '1'] 0 3 =
      ['2', '0', '8'] := by decide
  have hs2 : substrLen ['2', '0', '8', ',', '1', '.', '0', '2', ',', '0', '.', '0', '1'] 4 8 =
      ['1', '.', '0', '2', ',', '0', '.', '0'] := by decide
  have hs3 : substrFrom ['2', '0', '8', ',', '1', '.', '0', '2', ',', '0', '.', '0', '1'] 9 =
      ['0', '.', '0', '1'] := by decide
  simp [parseConstraint, hf1, hf2, hs1, hs2, hs3, stod_208, stod_102frag, stod_001]

/-- Two-field parse of `"1.02,0.01"` with the default reference scale. -/
theorem parse_case2 :
    parseConstraint "1.02,0.01".toList = some (208, 1.02, 0.01) := by
  have hf1 : strFind ['1', '.', '0', '2', ',', '0', '.', '0', '1'] ',' 0 = some 4 := by
    decide
  have hf2 : strFind ['1', '.', '0', '2', ',', '0', '.', '0', '1'] ',' 5 = none := by
    decide
  have hs1 : substrLen ['1', '.', '0', '2', ',', '0', '.', '0', '1'] 0 4 =
      ['1', '.', '0', '2'] := by decide
  have hs2 : substrFrom ['1', '.', '0', '2', ',', '0', '.', '0', '1'] 5 =
      ['0', '.', '0', '1'] := by decide
  simp [parseConstraint, hf1, hf2, hs1, hs2, stod_102, stod_001]

/-- A specification string without a comma always fails to parse. -/
theorem parse_no_comma (s : List Char) (h : ',' ∉ s) : parseConstraint s = none := by
  unfold parseConstraint
  rw [strFind_none_of_not_mem s ',' 0 h]

/-- C2: parsing `"208,1.02,0.01"` yields reference scale 208, target 1.02
and relative uncertainty 0.01; parsing `"1.02,0.01"` yields the default
reference scale 208 with the same target and uncertainty; and every input
without a comma fails to parse, upon which the program exits with failure
status. -/
theorem constraint_parse_spec :
    parseConstraint "208,1.02,0.01".toList = some (208, 1.02, 0.01) ∧
    parseConstraint "1.02,0.01".toList = some (208, 1.02, 0.01) ∧
    ∀ s : List Char, ',' ∉ s →
      parseConstraint s = none ∧
      fitMain ⟨"PtBal".toList, none, some s⟩ (fun _ => 0) = 1 := by
  refine ⟨parse_case1, parse_case2, fun s h => ⟨parse_no_comma s h, ?_⟩⟩
  have hb : balanceMode ['P', 't', 'B', 'a', 'l'] = some false := by decide
  simp [fitMain, configure, hb, parse_no_comma s h]

/-- Witness for C2's universally quantified conjunct at the comma-free
string `"abc"`. -/
theorem constraint_parse_spec_witness :
    parseConstraint "abc".toList = none ∧
    fitMain ⟨"PtBal".toList, none, some "abc".toList⟩ (fun _ => 0) = 1 :=
  constraint_parse_spec.2.2 "abc".toList (by decide)

/-- C3 fails as stated: `"208"` is a single well-formed number (its `stod`
conversion succeeds), yet the constraint parser rejects it, because the
code demands a comma before looking at any field. -/
theorem constraint_single_number_rejected :
    stod "208".toList = some 208 ∧ parseConstraint "208".toList = none := by
  constructor
  · simpa using stod_208
  · exact parse_no_comma "208".toList (by decide)

/-- C3 (amended): constraint parsing accepts only 2 or 3 comma-separated
numeric fields; every one-field string — even a single well-formed
number — fails with a parse error, since the code rejects any
specification without a comma. -/
theorem constraint_one_field_always_fails (s : List Char) (h : ',' ∉ s) :
    parseConstraint s = none :=
  parse_no_comma s h

/-- Witness for the amended C3 at the single well-formed number `"1.5"`. -/
theorem constraint_one_field_always_fails_witness :
    parseConstraint "1.5".toList = none :=
  constraint_one_field_always_fails "1.5".toList (by decide)

/-- C9: every configuration error — a balance-variable name that is
neither `"PtBal"` nor `"MPF"` case-insensitively, a malformed constraint
specification, or a run requesting no measurements — is detected in the
configuration phase and makes `main` return `EXIT_FAILURE` (1) for every
possible fitting continuation, which therefore never runs. -/
theorem config_errors_exit_failure (cfg : FitConfig) (runFit : List Meas → ℕ) :
    (cfg.balance.map Char.toLower ≠ "mpf".toList →
      cfg.balance.map Char.toLower ≠ "ptbal".toList →
      configure cfg = .error .unknownBalance ∧ fitMain cfg runFit = 1) ∧
    (∀ s, cfg.constraint = some s → parseConstraint s = none →
      (balanceMode cfg.balance).isSome →
      configure cfg = .error .badConstraint ∧ fitMain cfg runFit = 1) ∧
    ((balanceMode cfg.balance).isSome → cfg.multijet = none →
      cfg.constraint = none →
      configure cfg = .error .noMeasurements ∧ fitMain cfg runFit = 1) := by
  refine ⟨?_, ?_, ?_⟩
  · intro h1 h2
    have h1' : List.map Char.toLower cfg.balance ≠ ['m', 'p', 'f'] := by
      simpa using h1
    have h2' : List.map Char.toLower cfg.balance ≠ ['p', 't', 'b', 'a', 'l'] := by
      simpa using h2
    have hc : configure cfg = .error .unknownBalance := by
      simp [configure, balanceMode, h1', h2']
    exact ⟨hc, by simp [fitMain, hc]⟩
  · intro s hs hps hbm
    obtain ⟨b, hb⟩ := Option.isSome_iff_exists.mp hbm
    have hc : configure cfg = .error .badConstraint := by
      simp [configure, hb, hs, hps]
    exact ⟨hc, by simp [fitMain, hc]⟩
  · intro hbm hm hcn
    obtain ⟨b, hb⟩ := Option.isSome_iff_exists.mp hbm
    have hc : configure cfg = .error .noMeasurements := by
      simp [configure, hb, hm, hcn]
    exact ⟨hc, by simp [fitMain, hc]⟩

/-- Witness for C9: one concrete configuration per error class. -/
theorem config_errors_exit_failure_witness :
    configure ⟨"foo".toList, none, none⟩ = .error .unknownBalance ∧
    configure ⟨"PtBal".toList, none, some "x".toList⟩ = .error .badConstraint ∧
    configure ⟨"MPF".toList, none, none⟩ = .error .noMeasurements :=
  ⟨((config_errors_exit_failure ⟨"foo".toList, none, none⟩ (fun _ => 0)).1
      (by decide) (by decide)).1,
   ((config_errors_exit_failure ⟨"PtBal".toList, none, some "x".toList⟩ (fun _ => 0)).2.1
      "x".toList rfl (parse_no_comma "x".toList (by decide)) (by decide)).1,
   ((config_errors_exit_failure ⟨"MPF".toList, none, none⟩ (fun _ => 0)).2.2
      (by decide) rfl rfl).1⟩

/-- C6: the flat vector handed to the minimizer has the POI first, at
indices `0 ≤ i < nPOI` with `nPOI = nPars - nNuis`, each named `p<i>`,
started at 0 with step `1e-2` and bounded to `[-1, 1]`; the nuisances
follow at indices `nPOI ≤ i < nPars` in registry index order (`i - nPOI`),
each started at 0 with step 1 and bounded to `[-5, 5]`. -/
theorem minimizer_layout (nPars nNuis : ℕ) (h : nNuis ≤ nPars)
    (nuisName : ℕ → String) :
    (minimizerVars nPars nNuis nuisName).length = nPars ∧
    (∀ i, i < nPars - nNuis →
      (minimizerVars nPars nNuis nuisName)[i]? =
        some ⟨"p" ++ toString i, 0, 1 / 100, -1, 1⟩) ∧
    (∀ i, nPars - nNuis ≤ i → i < nPars →
      (minimizerVars nPars nNuis nuisName)[i]? =
        some ⟨nuisName (i - (nPars - nNuis)), 0, 1, -5, 5⟩) := by
  refine ⟨?_, ?_, ?_⟩
  · simp only [minimizerVars, List.length_append, List.length_map,
      List.length_range]
    omega
  · intro i hi
    simp only [minimizerVars]
    rw [List.getElem?_append]
    rw [if_pos (by simpa using hi)]
    simp [List.getElem?_range, hi]
  · intro i h1 h2
    have hlt : i - (nPars - nNuis) < nPars - (nPars - nNuis) := by omega
    simp only [minimizerVars]
    rw [List.getElem?_append]
    rw [if_neg (by simp; omega)]
    simp [List.getElem?_range, hlt]

/-- Witness for C6 with three parameters, one of them a nuisance. -/
theorem minimizer_layout_witness :
    (minimizerVars 3 1 (fun j => "nu" ++ toString j)).length = 3 ∧
    (minimizerVars 3 1 (fun j => "nu" ++ toString j))[0]? =
      some ⟨"p" ++ toString 0, 0, 1 / 100, -1, 1⟩ ∧
    (minimizerVars 3 1 (fun j => "nu" ++ toString j))[2]? =
      some ⟨"nu" ++ toString 0, 0, 1, -5, 5⟩ :=
  ⟨(minimizer_layout 3 1 (by decide) (fun j => "nu" ++ toString j)).1,
   (minimizer_layout 3 1 (by decide) (fun j => "nu" ++ toString j)).2.1 0 (by decide),
   (minimizer_layout 3 1 (by decide) (fun j => "nu" ++ toString j)).2.2 2
     (by decide) (by decide)⟩

/-- C7 does not hold for every corrector: a corrector that is zero at the
bin's photon pt makes `PhotonJet::Eval` divide by zero, so no (finite,
comparable) real number is returned at all. -/
theorem photonJet_eval_not_always_real :
    PhotonJet.Eval ⟨[⟨50, 3, 1⟩]⟩ (fun _ => 0) ⟨0⟩ = none := by
  simp [PhotonJet.Eval, PhotonJet.evalBins, PhotonJet.evalBin, fdiv]
